import Mathlib

/-!
Verification development for the agentic orchestration core of the repository:
the agent loop (`agent.py`), the permissive JSON parser (`parser.py`), the
searcher with its fact extraction and filename fallback (`searcher.py`), the
fallback router (`router.py`), the query rewriter (`rewriter.py`), and the
tool registry (`tools.py`).

The Python code is shallowly embedded.  Python strings are Lean `String`s
(operated on through `List Char`); Python runtime values that can flow through
`json` parsing and tool parameters are the inductive `PyVal`; code that can
raise is embedded in `Except Unit`; the language model collaborator is an
oracle `Nat → String` indexed by the number of `generate` calls issued so far
(the message lists handed to the model are therefore not reconstructed — the
oracle answer does not depend on them); the vector-search and filesystem
collaborators are oracles as well.  Float scores are modelled as rationals.
All definitions are executable.
-/

set_option maxRecDepth 131072

namespace Manole

/-- Python runtime value, as produced by `json.loads` and carried in tool
parameter maps: `None`, `bool`, `int`, `float` (kept as its lexeme — no float
arithmetic is ever performed on it in the embedded code), `str`, `list`,
`dict` with string keys (the only keys that occur in the embedded code). -/
inductive PyVal : Type where
  | vnone : PyVal
  | vbool : Bool → PyVal
  | vint : Int → PyVal
  | vfloat : String → PyVal
  | vstr : String → PyVal
  | vlist : List PyVal → PyVal
  | vdict : List (String × PyVal) → PyVal

/-- The apostrophe character (written via its code point to keep source
literals plain). -/
def sqChar : Char := Char.ofNat 39

/-- The double-quote character. -/
def dqChar : Char := Char.ofNat 34

/-- The opening-brace character. -/
def obChar : Char := Char.ofNat 123

/-- The closing-brace character. -/
def cbChar : Char := Char.ofNat 125

/-- Python `str.lower()` on one character (ASCII, which is all the embedded
string constants use). -/
def pyLowerChar (c : Char) : Char := c.toLower

/-- Python `str.lower()`. -/
def pyLower (s : String) : String := ⟨s.toList.map pyLowerChar⟩

/-- Python whitespace for `str.split()` / `str.strip()`: space, tab, newline,
carriage return, form feed, vertical tab. -/
def isPyWs (c : Char) : Bool :=
  c = ' ' || c = '\t' || c = '\n' || c = '\r' || c = Char.ofNat 12 || c = Char.ofNat 11

/-- Strip, from both ends, every character satisfying `p`
(Python `str.strip(chars)` semantics). -/
def stripWhile (p : Char → Bool) (s : String) : String :=
  ⟨((s.toList.dropWhile p).reverse.dropWhile p).reverse⟩

/-- Python `str.strip()` (whitespace). -/
def pyStrip (s : String) : String := stripWhile isPyWs s

/-- Python `value.strip(q)` for a set of characters given as a list. -/
def stripChars (cs : List Char) (s : String) : String :=
  stripWhile (fun c => cs.contains c) s

/-- Python `str.rstrip(chars)`: strip only from the right end. -/
def rstripChars (cs : List Char) (s : String) : String :=
  ⟨(s.toList.reverse.dropWhile (fun c => cs.contains c)).reverse⟩

/-- Python `str.split()` with no argument: split on runs of whitespace,
dropping empty pieces. -/
def pySplitWsAux : List Char → List Char → List String
  | [], acc => if acc.isEmpty then [] else [⟨acc.reverse⟩]
  | c :: rest, acc =>
    if isPyWs c then
      if acc.isEmpty then pySplitWsAux rest []
      else ⟨acc.reverse⟩ :: pySplitWsAux rest []
    else pySplitWsAux rest (c :: acc)

/-- Python `str.split()` (whitespace, no empties). -/
def pySplitWs (s : String) : List String := pySplitWsAux s.toList []

/-- Python `sub in s` substring test, on character lists. -/
def listHasSub (nee : List Char) : List Char → Bool
  | [] => nee.isEmpty
  | c :: t => nee.isPrefixOf (c :: t) || listHasSub nee t

/-- Python `sub in s` substring test. -/
def strHasSub (hay nee : String) : Bool := listHasSub nee.toList hay.toList

/-- Python `s.startswith(pre)`. -/
def strStartsWith (pre s : String) : Bool := pre.toList.isPrefixOf s.toList

/-- Split on one separator character, keeping empty pieces
(Python `s.split(",")` semantics for a single-character separator). -/
def splitOnChar (sep : Char) (s : String) : List String :=
  let rec go : List Char → List Char → List String
    | [], acc => [⟨acc.reverse⟩]
    | c :: rest, acc =>
      if c = sep then ⟨acc.reverse⟩ :: go rest []
      else go rest (c :: acc)
  go s.toList []

/-- Index of the first occurrence of `nee` in the haystack, if any
(Python `str.find`, restricted to found/not-found). -/
def listFindSub (nee : List Char) : List Char → Option Nat
  | [] => if nee.isEmpty then some 0 else none
  | c :: t =>
    if nee.isPrefixOf (c :: t) then some 0
    else (listFindSub nee t).map (· + 1)

/-- Python `str.isdigit()` restricted to ASCII digits (the only digits the
embedded regular expressions produce). -/
def pyIsDigits (s : String) : Bool :=
  !s.isEmpty && s.toList.all (fun c => c.isDigit)

/-- Python truthiness of a `PyVal`.  A float lexeme is falsy when its mantissa
has no nonzero digit (covers 0, 0.0, -0.0 and exponent forms of zero). -/
def pyTruthy : PyVal → Bool
  | .vnone => false
  | .vbool b => b
  | .vint n => n ≠ 0
  | .vfloat s => s.toList.any (fun c => c.isDigit && c ≠ '0') ||
      strHasSub (pyLower s) "inf" || strHasSub (pyLower s) "nan"
  | .vstr s => !s.isEmpty
  | .vlist xs => !xs.isEmpty
  | .vdict kvs => !kvs.isEmpty

/-- Python dict lookup `d.get(k)` on an insertion-ordered association list. -/
def pyGet (kvs : List (String × PyVal)) (k : String) : Option PyVal :=
  (kvs.find? (fun kv => kv.1 == k)).map Prod.snd

/-- Python dict lookup with default, `d.get(k, dflt)`. -/
def pyGetD (kvs : List (String × PyVal)) (k : String) (dflt : PyVal) : PyVal :=
  (pyGet kvs k).getD dflt

/-- Python `k in d` key test. -/
def pyHasKey (kvs : List (String × PyVal)) (k : String) : Bool :=
  kvs.any (fun kv => kv.1 == k)

/-- Python dict assignment `d[k] = v`: update in place when the key exists
(keeping its position), else append. -/
def pySet (kvs : List (String × PyVal)) (k : String) (v : PyVal) :
    List (String × PyVal) :=
  if pyHasKey kvs k then
    kvs.map (fun kv => if kv.1 == k then (k, v) else kv)
  else kvs ++ [(k, v)]

/-- Python `x == needle` for a needle that is a `str` literal: true exactly
for an equal string value (how every value comparison in the embedded code is
used). -/
def pyIsStr (v : PyVal) (needle : String) : Bool :=
  match v with
  | .vstr s => s == needle
  | _ => false

/-- Python `needle in xs` membership for a string needle in a list of values. -/
def pyListHasStr (xs : List PyVal) (needle : String) : Bool :=
  xs.any (fun v => pyIsStr v needle)

mutual
/-- Python `str(v)` / f-string formatting of a value (list and dict render in
`repr` style with apostrophe-quoted strings, as Python does). -/
def pyFormat : PyVal → String
  | .vnone => "None"
  | .vbool b => if b then "True" else "False"
  | .vint n => toString n
  | .vfloat s => s
  | .vstr s => s
  | .vlist xs => "[" ++ pyFormatList xs ++ "]"
  | .vdict kvs => obChar.toString ++ pyFormatDict kvs ++ cbChar.toString

/-- Comma-joined `repr`s of list elements. -/
def pyFormatList : List PyVal → String
  | [] => ""
  | [x] => pyReprVal x
  | x :: rest => pyReprVal x ++ ", " ++ pyFormatList rest

/-- Comma-joined `repr`s of dict items. -/
def pyFormatDict : List (String × PyVal) → String
  | [] => ""
  | [(k, v)] => sqChar.toString ++ k ++ sqChar.toString ++ ": " ++ pyReprVal v
  | (k, v) :: rest =>
      sqChar.toString ++ k ++ sqChar.toString ++ ": " ++ pyReprVal v ++ ", " ++
        pyFormatDict rest

/-- Python `repr(v)` as used inside formatted containers. -/
def pyReprVal : PyVal → String
  | .vstr s => sqChar.toString ++ s ++ sqChar.toString
  | v => pyFormat v
end

/-- Python `", ".join`-style join with a separator. -/
def joinWith (sep : String) : List String → String
  | [] => ""
  | [x] => x
  | x :: rest => x ++ sep ++ joinWith sep rest

/-- Python `list(dict.fromkeys(l))`: keep the first occurrence of each
element, in order (seen-set accumulator formulation, mirroring how the dict
is built). -/
def pyDedupAux (seen : List String) : List String → List String
  | [] => []
  | x :: xs =>
    if x ∈ seen then pyDedupAux seen xs
    else x :: pyDedupAux (x :: seen) xs

/-- Deduplicate keeping first occurrences (the `list(dict.fromkeys(...))`
idiom used at every return site of the agent loop). -/
def pyDedup (l : List String) : List String := pyDedupAux [] l

/-- Specification-side statement of "first appearance order": take elements
in order, dropping every later repeat. -/
def keepFirsts : List String → List String
  | [] => []
  | x :: xs => x :: keepFirsts (xs.filter (fun a => a ≠ x))
termination_by l => l.length
decreasing_by
  simp only [List.length_cons]
  exact Nat.lt_succ_of_le (List.length_filter_le _ _)

/-! ### Model of `json.loads` / `json.dumps`

The Python standard-library `json` module is an external collaborator of the
embedded code.  `jsonLoads` is a strict recursive-descent reader of the JSON
value grammar as `json.loads` accepts it (objects, arrays, escaped strings,
numbers — integral ones as `vint`, others as `vfloat` lexemes — plus the
`NaN`/`Infinity` extensions); a lone UTF-16 surrogate escape is mapped to the
replacement character, the one place the model cannot mirror Python exactly.
Recursion is by explicit fuel, initialised generously by `jsonLoads`. -/

/-- JSON whitespace accepted between tokens by `json.loads`. -/
def jsonWs (c : Char) : Bool := c = ' ' || c = '\t' || c = '\n' || c = '\r'

/-- Drop leading JSON whitespace. -/
def jsonSkipWs (s : List Char) : List Char := s.dropWhile jsonWs

/-- Hexadecimal digit value. -/
def hexVal (c : Char) : Option Nat :=
  if c.isDigit then some (c.toNat - 48)
  else if 'a' ≤ c ∧ c ≤ 'f' then some (c.toNat - 87)
  else if 'A' ≤ c ∧ c ≤ 'F' then some (c.toNat - 55)
  else none

/-- Value of four hex digits. -/
def hex4 : List Char → Option (Nat × List Char)
  | a :: b :: c :: d :: rest => do
    let x ← hexVal a
    let y ← hexVal b
    let z ← hexVal c
    let w ← hexVal d
    some (((x * 16 + y) * 16 + z) * 16 + w, rest)
  | _ => none

/-- Read the body of a JSON string (opening quote already consumed). -/
def jsonString : Nat → List Char → List Char → Option (String × List Char)
  | 0, _, _ => none
  | _ + 1, _, [] => none
  | fuel + 1, acc, c :: rest =>
    if c = dqChar then some (⟨acc.reverse⟩, rest)
    else if c = '\\' then
      match rest with
      | [] => none
      | e :: rest2 =>
        if e = dqChar then jsonString fuel (dqChar :: acc) rest2
        else if e = '\\' then jsonString fuel ('\\' :: acc) rest2
        else if e = '/' then jsonString fuel ('/' :: acc) rest2
        else if e = 'b' then jsonString fuel (Char.ofNat 8 :: acc) rest2
        else if e = 'f' then jsonString fuel (Char.ofNat 12 :: acc) rest2
        else if e = 'n' then jsonString fuel ('\n' :: acc) rest2
        else if e = 'r' then jsonString fuel ('\r' :: acc) rest2
        else if e = 't' then jsonString fuel ('\t' :: acc) rest2
        else if e = 'u' then
          match hex4 rest2 with
          | none => none
          | some (n, rest3) =>
            if 0xD800 ≤ n ∧ n ≤ 0xDBFF then
              match rest3 with
              | '\\' :: 'u' :: rest4 =>
                match hex4 rest4 with
                | some (m, rest5) =>
                  if 0xDC00 ≤ m ∧ m ≤ 0xDFFF then
                    jsonString fuel
                      (Char.ofNat (0x10000 + (n - 0xD800) * 0x400 + (m - 0xDC00)) :: acc)
                      rest5
                  else jsonString fuel (Char.ofNat 0xFFFD :: acc) rest3
                | none => jsonString fuel (Char.ofNat 0xFFFD :: acc) rest3
              | _ => jsonString fuel (Char.ofNat 0xFFFD :: acc) rest3
            else if 0xDC00 ≤ n ∧ n ≤ 0xDFFF then
              jsonString fuel (Char.ofNat 0xFFFD :: acc) rest3
            else jsonString fuel (Char.ofNat n :: acc) rest3
        else none
    else if c.toNat < 0x20 then none
    else jsonString fuel (c :: acc) rest

/-- Decimal digits to a natural number. -/
def digitsToNat (ds : List Char) : Nat :=
  ds.foldl (fun n c => n * 10 + (c.toNat - 48)) 0

/-- Read a JSON number starting at the current position (first character is a
digit or a minus sign, not `-Infinity`).  Integral numbers become `vint`,
numbers with a fraction or exponent become `vfloat` holding the lexeme. -/
def jsonNumber (s : List Char) : Option (PyVal × List Char) :=
  let (neg, s1) := match s with
    | '-' :: t => (true, t)
    | t => (false, t)
  let intpart := s1.takeWhile Char.isDigit
  let s2 := s1.dropWhile Char.isDigit
  if intpart.isEmpty then none
  else if intpart.length > 1 ∧ intpart.headD '0' = '0' then none
  else
    let (frac, s3) := match s2 with
      | '.' :: t =>
        let ds := t.takeWhile Char.isDigit
        if ds.isEmpty then ([], s2) else ('.' :: ds, t.dropWhile Char.isDigit)
      | _ => ([], s2)
    if s3 ≠ s2 ∧ frac = [] then none
    else
      let (expo, s4) := match s3 with
        | e :: t =>
          if e = 'e' ∨ e = 'E' then
            let (sgn, t2) := match t with
              | '+' :: u => (['+'], u)
              | '-' :: u => (['-'], u)
              | u => ([], u)
            let ds := t2.takeWhile Char.isDigit
            if ds.isEmpty then (([] : List Char), s3)
            else (e :: sgn ++ ds, t2.dropWhile Char.isDigit)
          else ([], s3)
        | [] => ([], s3)
      if frac.isEmpty ∧ expo.isEmpty then
        let n : Int := Int.ofNat (digitsToNat intpart)
        some (.vint (if neg then -n else n), s2)
      else
        let lexeme : List Char :=
          (if neg then ['-'] else []) ++ intpart ++ frac ++ expo
        some (.vfloat ⟨lexeme⟩, s4)

mutual
/-- Read one JSON value. -/
def jsonValue : Nat → List Char → Option (PyVal × List Char)
  | 0, _ => none
  | fuel + 1, s =>
    match jsonSkipWs s with
    | [] => none
    | c :: rest =>
      if c = obChar then
        match jsonSkipWs rest with
        | c2 :: rest2 =>
          if c2 = cbChar then some (.vdict [], rest2)
          else jsonMembers fuel [] (c2 :: rest2)
        | [] => none
      else if c = '[' then
        match jsonSkipWs rest with
        | c2 :: rest2 =>
          if c2 = ']' then some (.vlist [], rest2)
          else jsonElements fuel [] (c2 :: rest2)
        | [] => none
      else if c = dqChar then
        match jsonString fuel [] rest with
        | some (str, rest2) => some (.vstr str, rest2)
        | none => none
      else if c = 't' then
        if ['r', 'u', 'e'].isPrefixOf rest then some (.vbool true, rest.drop 3)
        else none
      else if c = 'f' then
        if ['a', 'l', 's', 'e'].isPrefixOf rest then some (.vbool false, rest.drop 4)
        else none
      else if c = 'n' then
        if ['u', 'l', 'l'].isPrefixOf rest then some (.vnone, rest.drop 3)
        else none
      else if c = 'N' then
        if ['a', 'N'].isPrefixOf rest then some (.vfloat "nan", rest.drop 2)
        else none
      else if c = 'I' then
        if ['n', 'f', 'i', 'n', 'i', 't', 'y'].isPrefixOf rest then
          some (.vfloat "inf", rest.drop 7)
        else none
      else if c = '-' then
        if ['I', 'n', 'f', 'i', 'n', 'i', 't', 'y'].isPrefixOf rest then
          some (.vfloat "-inf", rest.drop 8)
        else jsonNumber (c :: rest)
      else if c.isDigit then jsonNumber (c :: rest)
      else none

/-- Read the members of an object, positioned at the first key. -/
def jsonMembers (fuel : Nat) (acc : List (String × PyVal)) (s : List Char) :
    Option (PyVal × List Char) :=
  match fuel with
  | 0 => none
  | fuel + 1 =>
    match s with
    | c :: rest =>
      if c = dqChar then
        match jsonString fuel [] rest with
        | some (key, rest2) =>
          match jsonSkipWs rest2 with
          | ':' :: rest3 =>
            match jsonValue fuel rest3 with
            | some (v, rest4) =>
              let acc2 := pySet acc key v
              match jsonSkipWs rest4 with
              | ',' :: rest5 =>
                match jsonSkipWs rest5 with
                | c2 :: rest6 => jsonMembers fuel acc2 (c2 :: rest6)
                | [] => none
              | c2 :: rest5 =>
                if c2 = cbChar then some (.vdict acc2, rest5) else none
              | [] => none
            | none => none
          | _ => none
        | none => none
      else none
    | [] => none

/-- Read the elements of an array, positioned at the first element. -/
def jsonElements (fuel : Nat) (acc : List PyVal) (s : List Char) :
    Option (PyVal × List Char) :=
  match fuel with
  | 0 => none
  | fuel + 1 =>
    match jsonValue fuel s with
    | some (v, rest) =>
      match jsonSkipWs rest with
      | ',' :: rest2 => jsonElements fuel (acc ++ [v]) rest2
      | ']' :: rest2 => some (.vlist (acc ++ [v]), rest2)
      | _ => none
    | none => none
end

/-- Model of Python `json.loads`: parse one JSON document, requiring nothing
but whitespace after it. -/
def jsonLoads (s : String) : Option PyVal :=
  let cs := s.toList
  match jsonValue (2 * cs.length + 8) cs with
  | some (v, rest) => if (jsonSkipWs rest).isEmpty then some v else none
  | none => none

/-- Lowercase hex digit. -/
def hexDigit (n : Nat) : Char :=
  if n < 10 then Char.ofNat (48 + n) else Char.ofNat (87 + (n - 10))

/-- Four-digit lowercase hex rendering for a `\uXXXX` escape. -/
def hex4Str (n : Nat) : String :=
  ⟨['\\', 'u', hexDigit (n / 4096 % 16), hexDigit (n / 256 % 16),
    hexDigit (n / 16 % 16), hexDigit (n % 16)]⟩

/-- Escape one character the way `json.dumps` (with its default
`ensure_ascii=True`) does. -/
def jsonEscapeChar (c : Char) : String :=
  if c = dqChar then "\\" ++ dqChar.toString
  else if c = '\\' then "\\\\"
  else if c = '\n' then "\\n"
  else if c = '\t' then "\\t"
  else if c = '\r' then "\\r"
  else if c = Char.ofNat 8 then "\\b"
  else if c = Char.ofNat 12 then "\\f"
  else if c.toNat < 0x20 then hex4Str c.toNat
  else if c.toNat < 0x7F then c.toString
  else if c.toNat ≤ 0xFFFF then hex4Str c.toNat
  else
    hex4Str (0xD800 + (c.toNat - 0x10000) / 0x400) ++
      hex4Str (0xDC00 + (c.toNat - 0x10000) % 0x400)

/-- Escape a whole string for `json.dumps`. -/
def jsonEscape (s : String) : String :=
  s.toList.foldl (fun acc c => acc ++ jsonEscapeChar c) ""

mutual
/-- Model of Python `json.dumps` with default separators. -/
def jsonDumps : PyVal → String
  | .vnone => "null"
  | .vbool b => if b then "true" else "false"
  | .vint n => toString n
  | .vfloat s => s
  | .vstr s => dqChar.toString ++ jsonEscape s ++ dqChar.toString
  | .vlist xs => "[" ++ jsonDumpsList xs ++ "]"
  | .vdict kvs => obChar.toString ++ jsonDumpsDict kvs ++ cbChar.toString

/-- Comma-separated dump of array elements. -/
def jsonDumpsList : List PyVal → String
  | [] => ""
  | [x] => jsonDumps x
  | x :: rest => jsonDumps x ++ ", " ++ jsonDumpsList rest

/-- Comma-separated dump of object items. -/
def jsonDumpsDict : List (String × PyVal) → String
  | [] => ""
  | [(k, v)] => dqChar.toString ++ jsonEscape k ++ dqChar.toString ++ ": " ++ jsonDumps v
  | (k, v) :: rest =>
      dqChar.toString ++ jsonEscape k ++ dqChar.toString ++ ": " ++ jsonDumps v ++
        ", " ++ jsonDumpsDict rest
end

/-! ### `parser.py` — `parse_json` with its multi-level fallback -/

/-- The character list `text[i:j+1]`. -/
def sliceIncl (cs : List Char) (i j : Nat) : List Char :=
  (cs.drop i).take (j + 1 - i)

/-- Indices `j` with `i < j` and `cs[j] = needle`, largest first — the order in
which the brace-extraction loop of `parse_json` shrinks `text.rfind`
candidates. -/
def idxOfCharAfter (cs : List Char) (needle : Char) (i : Nat) : List Nat :=
  (((List.range cs.length).filter
    (fun j => i < j && cs.getD j ' ' = needle))).reverse

/-- Try `json.loads` on `text[i:j+1]` for each candidate closing brace `j`,
first success wins (the `while last_brace > i` loop). -/
def braceTry (cs : List Char) (i : Nat) : List Nat → Option PyVal
  | [] => none
  | j :: rest =>
    match jsonLoads ⟨sliceIncl cs i j⟩ with
    | some v => some v
    | none => braceTry cs i rest

/-- Case-insensitive prefix test (for the `re.IGNORECASE` literal match). -/
def caselessPrefix (pat : List Char) (s : List Char) : Bool :=
  (pat.map pyLowerChar).isPrefixOf (s.map pyLowerChar)

/-- Match the pattern `"relevant"\s*:\s*(true|false)` (case-insensitive)
anchored at the head of `s`. -/
def relevantAt (s : List Char) : Option Bool :=
  let pat := dqChar :: ("relevant".toList ++ [dqChar])
  if caselessPrefix pat s then
    let s1 := (s.drop pat.length).dropWhile (fun c => isPyWs c)
    match s1 with
    | ':' :: s2 =>
      let s3 := s2.dropWhile (fun c => isPyWs c)
      if caselessPrefix "true".toList s3 then some true
      else if caselessPrefix "false".toList s3 then some false
      else none
    | _ => none
  else none

/-- `re.search` for the relevant-field pattern: leftmost matching position. -/
def scanRelevant : List Char → Option Bool
  | [] => none
  | c :: t =>
    match relevantAt (c :: t) with
    | some b => some b
    | none => scanRelevant t

/-- Match the pattern `"facts"\s*:\s*\[([^\]]*)\]` anchored at the head of
`s`, returning the bracketed group. -/
def factsAt (s : List Char) : Option (List Char) :=
  let pat := dqChar :: ("facts".toList ++ [dqChar])
  if pat.isPrefixOf s then
    let s1 := (s.drop pat.length).dropWhile (fun c => isPyWs c)
    match s1 with
    | ':' :: s2 =>
      let s3 := s2.dropWhile (fun c => isPyWs c)
      match s3 with
      | '[' :: s4 =>
        let inner := s4.takeWhile (fun c => c ≠ ']')
        match s4.dropWhile (fun c => c ≠ ']') with
        | ']' :: _ => some inner
        | _ => none
      | _ => none
    | _ => none
  else none

/-- `re.search` for the facts-array pattern: leftmost matching position. -/
def scanFacts : List Char → Option (List Char)
  | [] => none
  | c :: t =>
    match factsAt (c :: t) with
    | some g => some g
    | none => scanFacts t

/-- The regex fallback of `parse_json`: extract a `"relevant"` boolean, then
split an optional `"facts"` array group on commas, stripping whitespace and
double quotes. -/
def regexFallback (text : String) : Option PyVal :=
  match scanRelevant text.toList with
  | none => none
  | some b =>
    let facts : List String :=
      match scanFacts text.toList with
      | none => []
      | some grp =>
        (splitOnChar ',' (String.mk grp)).filterMap (fun f =>
          if pyStrip f ≠ "" then some (stripChars [dqChar] (pyStrip f)) else none)
    some (.vdict [("relevant", .vbool b), ("facts", .vlist (facts.map .vstr))])

/-- `parser.parse_json`: direct `json.loads` of the stripped text; else spans
from the first opening brace to successively smaller closing braces; else the
relevant/facts regex fallback; else `None`. -/
def parse_json (text : String) : Option PyVal :=
  match jsonLoads (pyStrip text) with
  | some v => some v
  | none =>
    let cs := text.toList
    let viaBraces : Option PyVal :=
      match cs.findIdx? (fun c => c = obChar) with
      | some i => braceTry cs i (idxOfCharAfter cs cbChar i)
      | none => none
    match viaBraces with
    | some v => some v
    | none => regexFallback text

/-! ### `searcher.py` — keywords, fact extraction, filename fallback -/

/-- The stopword set of `searcher.extract_keywords`. -/
def searcherStopwords : List String :=
  ["a", "an", "the", "is", "was", "are", "were", "be", "been",
   "do", "does", "did", "has", "have", "had", "it", "its",
   "of", "for", "in", "on", "to", "at", "by", "my", "me",
   "what", "when", "where", "how", "who", "which", "any",
   "and", "or", "not", "no", "but", "if", "so", "can",
   "all", "each", "every", "this", "that", "there", "here",
   "from", "with", "about", "into", "over", "after", "before",
   "show", "find", "get", "tell", "give", "list",
   "pdf", "pdfs", "txt", "csv", "doc", "docx", "xls", "xlsx",
   "png", "jpg", "jpeg", "json", "xml", "file", "files",
   "document", "documents"]

/-- `searcher.extract_keywords`: lower-case, delete `?` `!` `.`, split on
whitespace, drop stopwords and words of length at most 2. -/
def extract_keywords (query : String) : List String :=
  let cleaned : String :=
    ⟨(pyLower query).toList.filter (fun c => c ≠ '?' && c ≠ '!' && c ≠ '.')⟩
  (pySplitWs cleaned).filter
    (fun w => !searcherStopwords.contains w && w.length > 2)

/-- A retrieval hit from the external vector-search collaborator.  The
backend float score is modelled as a rational. -/
structure Chunk where
  id : String
  text : String
  score : ℚ
  metadata : List (String × PyVal)

/-- A filesystem path as the toolbox hands it to the searcher. -/
structure PathT where
  parent : String
  name : String

/-- Python `str(path)`. -/
def PathT.full (p : PathT) : String := p.parent ++ "/" ++ p.name

mutual
/-- Python `==` between two values (used only for dict keys in the embedded
code; Python additionally identifies `True` with `1`, a collision no string
key can produce). -/
def pvBeq : PyVal → PyVal → Bool
  | .vnone, .vnone => true
  | .vbool a, .vbool b => a == b
  | .vint a, .vint b => a == b
  | .vfloat a, .vfloat b => a == b
  | .vstr a, .vstr b => a == b
  | .vlist a, .vlist b => pvBeqList a b
  | .vdict a, .vdict b => pvBeqDict a b
  | _, _ => false

/-- Elementwise `pvBeq`. -/
def pvBeqList : List PyVal → List PyVal → Bool
  | [], [] => true
  | x :: xs, y :: ys => pvBeq x y && pvBeqList xs ys
  | _, _ => false

/-- Itemwise `pvBeq` with equal keys. -/
def pvBeqDict : List (String × PyVal) → List (String × PyVal) → Bool
  | [], [] => true
  | (k1, v1) :: xs, (k2, v2) :: ys => k1 == k2 && pvBeq v1 v2 && pvBeqDict xs ys
  | _, _ => false
end

/-- `d.setdefault(key, []).extend(facts)` on an insertion-ordered association
list with `PyVal` keys. -/
def dictExtendPv (d : List (PyVal × List String)) (key : PyVal)
    (facts : List String) : List (PyVal × List String) :=
  if d.any (fun kv => pvBeq kv.1 key) then
    d.map (fun kv => if pvBeq kv.1 key then (kv.1, kv.2 ++ facts) else kv)
  else d ++ [(key, facts)]

/-- `d.setdefault(key, []).extend(facts)` for string keys (the filename
fallback only ever uses `path.name` keys). -/
def dictExtendStr (d : List (String × List String)) (key : String)
    (facts : List String) : List (String × List String) :=
  if d.any (fun kv => kv.1 == key) then
    d.map (fun kv => if kv.1 == key then (kv.1, kv.2 ++ facts) else kv)
  else d ++ [(key, facts)]

/-- `searcher.Searcher._normalize_fact`. -/
def normalizeFact (f : PyVal) : Option String :=
  let result : Option String :=
    match f with
    | .vstr s => if pyStrip s ≠ "" then some (pyStrip s) else none
    | .vdict kvs =>
      let nameV := pyGetD kvs "name" (.vstr "")
      let valueV := pyGetD kvs "value" (.vstr "")
      if pyTruthy nameV ∧ pyTruthy valueV then
        some (pyFormat nameV ++ ": " ++ pyFormat valueV)
      else
        let vals := ((kvs.map Prod.snd).filter pyTruthy).map pyFormat
        if vals ≠ [] then some (joinWith ": " vals) else none
    | _ => none
  match result with
  | some r => if r ≠ "" ∧ r.length ≥ 3 then some r else none
  | none => none

/-- `MAX_FACTS_PER_CHUNK`. -/
def MAX_FACTS_PER_CHUNK : Nat := 10

/-- Normalisation pipeline applied to a raw facts list: cap at
`MAX_FACTS_PER_CHUNK`, normalise, drop rejects. -/
def processFacts (xs : List PyVal) : List String :=
  (xs.take MAX_FACTS_PER_CHUNK).filterMap normalizeFact

/-- `searcher.Searcher._extract_facts`, as a function of the model response
`raw` for the chunk (the prompt built from the chunk only feeds the model
oracle, so it does not appear here).  A parse producing a value that is
neither a list nor a dict makes the Python code call `.get` on it and raise
(`.error`). -/
def extractFactsE (raw : String) : Except Unit (List String) :=
  match parse_json raw with
  | none => .ok []
  | some (.vlist xs) => .ok (processFacts xs)
  | some (.vdict kvs) =>
    match pyGetD kvs "facts" (.vlist []) with
    | .vlist xs => .ok (processFacts xs)
    | _ => .ok []
  | some _ => .error ()

/-- Python `a or b` on values: first operand when truthy, else the second. -/
def pyOrV (a b : PyVal) : PyVal := if pyTruthy a then a else b

/-- `PurePosixPath(s).name`. -/
def posixName (s : String) : String :=
  let t := s.toList.reverse.dropWhile (fun c => c = '/')
  ⟨(t.takeWhile (fun c => c ≠ '/')).reverse⟩

/-- `searcher.Searcher._get_source`: chained truthy lookup of source-naming
metadata keys, then the basename of `file_path`, then the chunk id.  A truthy
non-string `file_path` would make `PurePosixPath` raise (`.error`). -/
def getSourceE (chunk : Chunk) : Except Unit PyVal :=
  let meta := chunk.metadata
  let name :=
    pyOrV ((pyGet meta "source").getD .vnone)
      (pyOrV ((pyGet meta "file_name").getD .vnone)
        (pyOrV ((pyGet meta "file").getD .vnone)
          ((pyGet meta "filename").getD .vnone)))
  if ¬ pyTruthy name ∧ pyTruthy ((pyGet meta "file_path").getD .vnone) then
    match (pyGet meta "file_path").getD .vnone with
    | .vstr s => .ok (pyOrV (.vstr (posixName s)) (.vstr chunk.id))
    | _ => .error ()
  else .ok (pyOrV name (.vstr chunk.id))

/-- The fixed message returned when chunks (or fallback files) yield no
facts. -/
def noneRelevantMsg : String :=
  "Search returned results but none were relevant to the query."

/-- Format a facts-by-source mapping with `PyVal` keys as the searcher does. -/
def formatFactsPv (fbs : List (PyVal × List String)) : String :=
  joinWith "\n" (fbs.flatMap (fun kv =>
    ("From " ++ pyFormat kv.1 ++ ":") :: kv.2.map (fun f => "  - " ++ f)))

/-- Format a facts-by-source mapping with string keys. -/
def formatFactsStr (fbs : List (String × List String)) : String :=
  joinWith "\n" (fbs.flatMap (fun kv =>
    ("From " ++ kv.1 ++ ":") :: kv.2.map (fun f => "  - " ++ f)))

/-- The map loop of `search_and_extract`: one model call per surviving chunk
(the counter `k` indexes the model oracle), grouping nonempty fact lists by
source. -/
def mapChunks (gen : Nat → String) :
    List Chunk → Nat → List (PyVal × List String) →
      Except Unit (List (PyVal × List String))
  | [], _, acc => .ok acc
  | c :: rest, k, acc =>
    match extractFactsE (gen k) with
    | .error e => .error e
    | .ok fs =>
      if fs.isEmpty then mapChunks gen rest (k + 1) acc
      else
        match getSourceE c with
        | .error e => .error e
        | .ok src => mapChunks gen rest (k + 1) (dictExtendPv acc src fs)

/-- `toolbox.ToolBox.grep_paths` over the toolbox root file listing. -/
def grepPaths (files : List PathT) (pattern : String) (limit : Nat) :
    List PathT :=
  (files.filter (fun f => strHasSub (pyLower f.name) (pyLower pattern))).take limit

/-- Deduplicate paths by their string form, keeping first occurrences (the
`seen` set of `_filename_fallback`). -/
def dedupPathsAux (seen : List String) : List PathT → List PathT
  | [] => []
  | p :: rest =>
    if p.full ∈ seen then dedupPathsAux seen rest
    else p :: dedupPathsAux (p.full :: seen) rest

/-- The matched-file list of `_filename_fallback`: per-keyword filename greps
capped at 3 each, deduplicated, capped at 3 files total. -/
def fallbackPaths (files : List PathT) (q : String) : List PathT :=
  (dedupPathsAux []
    ((extract_keywords q).flatMap (fun kw => grepPaths files kw 3))).take 3

/-- Did `FileReader.read` return an error message rather than text? -/
def readFailed (text : String) : Bool :=
  strStartsWith "File not found" text || strStartsWith "Failed to read" text ||
    strStartsWith "No text content" text

/-- The per-file loop of `_filename_fallback`: skip unreadable files, spend
one model call per readable file, and surface each readable file with its
extracted facts or the `File found:` placeholder. -/
def fallbackSteps (reader : String → String) (gen : Nat → String) :
    List PathT → Nat → Except Unit (List (String × List String))
  | [], _ => .ok []
  | p :: rest, k =>
    let text := reader p.full
    if readFailed text then fallbackSteps reader gen rest k
    else
      match extractFactsE (gen k) with
      | .error e => .error e
      | .ok fs =>
        match fallbackSteps reader gen rest (k + 1) with
        | .error e => .error e
        | .ok restEntries =>
          .ok ((p.name,
            if fs.isEmpty then ["File found: " ++ p.name] else fs) :: restEntries)

/-- `searcher.Searcher._filename_fallback` (the model oracle continues from
call index `k0`). -/
def filenameFallbackE (reader : String → String) (files : List PathT)
    (gen : Nat → String) (q : String) (k0 : Nat) : Except Unit String :=
  let keywords := extract_keywords q
  if keywords.isEmpty then .ok noneRelevantMsg
  else
    let paths := fallbackPaths files q
    if paths.isEmpty then .ok noneRelevantMsg
    else
      match fallbackSteps reader gen paths k0 with
      | .error e => .error e
      | .ok entries =>
        let fbs := entries.foldl (fun acc e => dictExtendStr acc e.1 e.2) []
        if fbs.isEmpty then .ok noneRelevantMsg
        else .ok (formatFactsStr fbs)

/-- The collaborators of one `Searcher` instance: the vector index, the model
oracle (indexed by call count), and the optional file reader / toolbox pair
(the toolbox appearing through its root file listing, which is all
`grep_paths` consults). -/
structure SearchEnv where
  leann : String → Nat → List Chunk
  gen : Nat → String
  reader : Option (String → String)
  files : Option (List PathT)

/-- `searcher.Searcher.search_and_extract`: retrieval, score pre-filter
(0.85 × top score), per-chunk fact extraction, grouping, filename fallback,
fixed messages. -/
def searchAndExtractE (env : SearchEnv) (q : String) (topk : Nat) :
    Except Unit String :=
  let chunks := env.leann q topk
  if chunks.isEmpty then .ok "No matching content found."
  else
    let chunks2 :=
      if chunks.length > 1 then
        match chunks with
        | c0 :: _ => chunks.filter (fun c => c.score ≥ c0.score * (85 / 100 : ℚ))
        | [] => chunks
      else chunks
    match mapChunks env.gen chunks2 0 [] with
    | .error e => .error e
    | .ok fbs =>
      if fbs.isEmpty then
        match env.reader, env.files with
        | some reader, some files =>
          filenameFallbackE reader files env.gen q chunks2.length
        | _, _ => .ok noneRelevantMsg
      else .ok (formatFactsPv fbs)

/-! ### `router.py` — the fallback router -/

/-- `router._EXT_MAP`, in its dict-literal order. -/
def EXT_MAP : List (String × String) :=
  [("pdf", "pdf"), ("pdfs", "pdf"), ("txt", "txt"), ("text", "txt"),
   ("py", "py"), ("python", "py"), ("md", "md"), ("markdown", "md"),
   ("csv", "csv"), ("json", "json"), ("xml", "xml"), ("doc", "doc"),
   ("docx", "docx"), ("xls", "xls"), ("xlsx", "xlsx"), ("png", "png"),
   ("jpg", "jpg"), ("jpeg", "jpeg")]

/-- `router._detect_extension`: first map entry whose keyword is a whole word
of the lower-cased query. -/
def detectExtension (q : String) : Option String :=
  let words := pySplitWs (pyLower q)
  (EXT_MAP.find? (fun kv => words.contains kv.1)).map Prod.snd

/-- ASCII word character, as in the regex class `\w`. -/
def isWordChar (c : Char) : Bool := c.isAlphanum || c = '_'

/-- Match `[\w-]+\.\w{2,4}` anchored at the head of `s` (whole match). -/
def nameHintAt (s : List Char) : Option (List Char) :=
  let run := s.takeWhile (fun c => isWordChar c || c = '-')
  if run.isEmpty then none
  else
    match s.drop run.length with
    | '.' :: rest =>
      let ws := rest.takeWhile isWordChar
      if ws.length ≥ 2 then some (run ++ '.' :: ws.take 4) else none
    | _ => none

/-- `re.search` for the filename pattern: leftmost matching position. -/
def scanNameHint : List Char → Option (List Char)
  | [] => none
  | c :: t =>
    match nameHintAt (c :: t) with
    | some g => some g
    | none => scanNameHint t

/-- Match a quoted span (either quote character on either side) anchored at
the head of `s`, returning the inner group. -/
def quotedAt (s : List Char) : Option (List Char) :=
  match s with
  | c :: rest =>
    if c = dqChar ∨ c = sqChar then
      let inner := rest.takeWhile (fun x => x ≠ dqChar && x ≠ sqChar)
      if inner.isEmpty then none
      else if (rest.drop inner.length).isEmpty then none
      else some inner
    else none
  | [] => none

/-- `re.search` for the quoted pattern: leftmost matching position. -/
def scanQuoted : List Char → Option (List Char)
  | [] => none
  | c :: t =>
    match quotedAt (c :: t) with
    | some g => some g
    | none => scanQuoted t

/-- The small stop set of `router._extract_name_hint`. -/
def routerStop : List String :=
  ["the", "a", "an", "is", "was", "of", "for", "my", "what", "when", "how",
   "file", "size"]

/-- `router._extract_name_hint`: a filename-looking token, else a quoted
span, else the last surviving "noun". -/
def extractNameHint (q : String) : Option String :=
  match scanNameHint q.toList with
  | some g => some ⟨g⟩
  | none =>
    match scanQuoted q.toList with
    | some g => some ⟨g⟩
    | none =>
      let words := pySplitWs ⟨(pyLower q).toList.filter (fun c => c ≠ '?')⟩
      let nouns := words.filter (fun w => !routerStop.contains w && w.length > 2)
      nouns.getLast?

/-- Size phrases that make a query a metadata query. -/
def routeSizeKws : List String :=
  ["space", "biggest", "largest", "storage", "heavy", "disk usage"]

/-- Count phrases. -/
def routeCountKws : List String := ["most", "least", "fewest"]

/-- Phrases that select the disk-usage summary. -/
def routeTotalKws : List String := ["total", "usage", "overview", "summary"]

/-- File-level words. -/
def routeFileWords : List String := ["file", "files", "document", "documents"]

/-- Folder-level words. -/
def routeFolderWords : List String :=
  ["folder", "folders", "directory", "directories"]

/-- Filesystem-structure phrases for the directory-tree branch. -/
def routeTreeKws : List String := ["folder", "tree", "directory", "structure"]

/-- File-metadata phrases. -/
def routeMetaKws : List String :=
  ["file size", "how big", "how large", "how old", "when was", "modified",
   "created"]

/-- `any(k in q for k in kws)` — substring matching of the phrase list. -/
def anyIn (kws : List String) (q : String) : Bool :=
  kws.any (fun k => strHasSub q k)

/-- `router.route`: ordered keyword/phrase matching on the lower-cased query,
defaulting to content search with the original query. -/
def route (query : String) (intent : Option String) :
    String × List (String × PyVal) :=
  let q := pyLower query
  let is_metadata := intent == some "metadata" || anyIn routeSizeKws q
  let is_count_query := anyIn routeCountKws q
  if is_metadata || is_count_query then
    if anyIn routeTotalKws q then ("disk_usage", [])
    else
      let mentions_files := anyIn routeFileWords q
      let mentions_folders := anyIn routeFolderWords q
      let ext := detectExtension q
      if is_count_query && mentions_folders then
        let ord := if anyIn ["least", "fewest"] q then "asc" else "desc"
        let params := [("sort_by", PyVal.vstr "count"), ("order", PyVal.vstr ord)]
        let params :=
          match ext with
          | some e => params ++ [("extension", PyVal.vstr e)]
          | none => params
        ("folder_stats", params)
      else if mentions_files && !mentions_folders then
        let params := [("sort_by", PyVal.vstr "size")]
        let params :=
          match ext with
          | some e => params ++ [("extension", PyVal.vstr e)]
          | none => params
        ("list_files", params)
      else ("folder_stats", [("sort_by", PyVal.vstr "size")])
  else if anyIn routeTreeKws q then
    ("directory_tree", [("max_depth", PyVal.vint 2)])
  else if anyIn routeMetaKws q then
    ("file_metadata", [("name_hint", (extractNameHint q).elim PyVal.vnone PyVal.vstr)])
  else ("semantic_search", [("query", PyVal.vstr query)])

/-! ### `rewriter.py` — the query rewriter -/

/-- `rewriter._VALID_INTENTS`. -/
def VALID_INTENTS : List String :=
  ["factual", "count", "list", "compare", "summarize", "metadata"]

/-- The rewrite triple (the data model fixes all three fields to strings). -/
structure RewriteResult where
  intent : String
  search_query : String
  resolved_query : String
  deriving DecidableEq

/-- `rewriter._fallback`. -/
def rewriterFallback (query : String) : RewriteResult :=
  ⟨"factual", query, query⟩

/-- Python `parsed.get(key) or query`: the parsed value when truthy, else the
raw query.  A truthy non-string value (possible only from malformed model
JSON, outside the data model) is carried by its textual form. -/
def strOrQuery (v : Option PyVal) (q : String) : String :=
  match v with
  | some w => if pyTruthy w then pyFormat w else q
  | none => q

/-- `rewriter.QueryRewriter.rewrite`, as a function of the model response
`raw` (the prompt built from query and context only feeds the model oracle).
A parse producing a non-dict value makes the Python code call `.get` on it
and raise (`.error`). -/
def rewriteOfE (query raw : String) : Except Unit RewriteResult :=
  match parse_json raw with
  | none => .ok (rewriterFallback query)
  | some (.vdict kvs) =>
    let intent :=
      match pyGetD kvs "intent" (.vstr "factual") with
      | .vstr s => if VALID_INTENTS.contains s then s else "factual"
      | _ => "factual"
    .ok ⟨intent, strOrQuery (pyGet kvs "search_query") query,
      strOrQuery (pyGet kvs "resolved_query") query⟩
  | some _ => .error ()

/-! ### `agent.py` — tool-call extraction -/

/-- A structured tool invocation.  The name is a `PyVal` because the JSON
extraction strategy passes through whatever value sits under `"name"`; a
non-dict JSON `"params"` value is carried as an empty map (the Python code
would keep it and raise at first use, a path no run in this development
reaches). -/
structure ToolCall where
  name : PyVal
  params : List (String × PyVal)

/-- `agent.Agent._KNOWN_TOOLS` (a frozenset in the source; its iteration
order is immaterial because no tool name is a prefix of another and regex
matching is leftmost-position-first). -/
def KNOWN_TOOLS : List String :=
  ["semantic_search", "count_files", "list_files", "grep_files",
   "file_metadata", "directory_tree", "folder_stats", "disk_usage", "respond"]

/-- Typing of one matched argument token: strip surrounding quote characters,
then `None` → null, all-digits → int, `True`/`False` → bool, else string. -/
def convertValue (tok : String) : PyVal :=
  let v := stripChars [dqChar, sqChar] tok
  if v = "None" then .vnone
  else if pyIsDigits v then .vint (Int.ofNat (digitsToNat v.toList))
  else if v = "True" then .vbool true
  else if v = "False" then .vbool false
  else .vstr v

/-- Match one value alternative of the argument regex
(`".*?"`, `'.*?'`, `\d+`, `None`, `True`, `False`; the dot does not cross
newlines) at the head of `s`, returning the token and the remainder. -/
def valueTokenAt (s : List Char) : Option (String × List Char) :=
  match s with
  | [] => none
  | c :: rest =>
    if c = dqChar ∨ c = sqChar then
      let inner := rest.takeWhile (fun x => x ≠ c && x ≠ '\n')
      match rest.drop inner.length with
      | c2 :: rest2 =>
        if c2 = c then some (⟨c :: inner ++ [c]⟩, rest2) else none
      | [] => none
    else if c.isDigit then
      let run := (c :: rest).takeWhile Char.isDigit
      some (⟨run⟩, (c :: rest).drop run.length)
    else if "None".toList.isPrefixOf (c :: rest) then
      some ("None", (c :: rest).drop 4)
    else if "True".toList.isPrefixOf (c :: rest) then
      some ("True", (c :: rest).drop 4)
    else if "False".toList.isPrefixOf (c :: rest) then
      some ("False", (c :: rest).drop 5)
    else none

/-- Match the whole argument pattern `(\w+)\s*=\s*(value)` at the head of
`s`, returning the key, the raw value token, and the remainder. -/
def paramAt (s : List Char) : Option ((String × String) × List Char) :=
  let key := s.takeWhile isWordChar
  if key.isEmpty then none
  else
    match (s.drop key.length).dropWhile (fun c => isPyWs c) with
    | '=' :: s2 =>
      match valueTokenAt (s2.dropWhile (fun c => isPyWs c)) with
      | some (tok, rest) => some ((⟨key⟩, tok), rest)
      | none => none
    | _ => none

/-- `re.finditer` over the argument pattern: leftmost non-overlapping
matches, skipping unmatched characters (which is how unparseable content
inside the argument list is ignored). -/
def scanParams : Nat → List Char → List (String × String)
  | 0, _ => []
  | _ + 1, [] => []
  | fuel + 1, c :: t =>
    match paramAt (c :: t) with
    | some (kv, rest) => kv :: scanParams fuel rest
    | none => scanParams fuel t

/-- Build the params dict from matched pairs (later duplicates overwrite in
place, as Python dict assignment does). -/
def buildParams (pairs : List (String × String)) : List (String × PyVal) :=
  pairs.foldl (fun d kv => pySet d kv.1 (convertValue kv.2)) []

/-- Index of the last occurrence of a character. -/
def lastIdxOf (cs : List Char) (c : Char) : Option Nat :=
  (cs.reverse.findIdx? (fun x => x = c)).map (fun k => cs.length - 1 - k)

/-- `agent.Agent._parse_native_tool_call`: anchored `(\w+)\((.*)\)` with
dot-matches-all on the stripped text (so the argument span runs to the last
closing parenthesis), then the argument scan. -/
def parseNative (raw : String) : Option ToolCall :=
  let s := (pyStrip raw).toList
  let nameRun := s.takeWhile isWordChar
  if nameRun.isEmpty then none
  else
    match s.drop nameRun.length with
    | '(' :: rest =>
      match lastIdxOf rest ')' with
      | none => none
      | some j =>
        let paramsStr := rest.take j
        some ⟨.vstr ⟨nameRun⟩,
          buildParams (scanParams (paramsStr.length + 1) paramsStr)⟩
    | _ => none

/-- The model-specific sentinel opening a delimited tool call. -/
def sentinelStart : String := "<|tool_call_start|>"

/-- The model-specific sentinel closing a delimited tool call. -/
def sentinelEnd : String := "<|tool_call_end|>"

/-- Extraction strategy 1: the span between the sentinels, optionally
bracket-wrapped, with the non-greedy group ending at the first closing
sentinel. -/
def strategy1 (resp : String) : Option String :=
  let cs := resp.toList
  match listFindSub sentinelStart.toList cs with
  | none => none
  | some i =>
    let t := cs.drop (i + sentinelStart.length)
    let t2 := match t with
      | '[' :: tt => tt
      | _ => t
    match listFindSub sentinelEnd.toList t2 with
    | none => none
    | some m =>
      if 1 ≤ m ∧ t2.getD (m - 1) ' ' = ']' then some ⟨t2.take (m - 1)⟩
      else some ⟨t2.take m⟩

/-- Index of the first occurrence of the two-character sequence `)]`. -/
def findParenBracket : List Char → Option Nat
  | ')' :: ']' :: _ => some 0
  | _ :: t => (findParenBracket t).map (· + 1)
  | [] => none

/-- Extraction strategy 3 at one position: `\[(\w+\(.*?\))\]` anchored here,
the non-greedy body ending at the first `)]`. -/
def bracketAt (s : List Char) : Option String :=
  match s with
  | '[' :: rest =>
    let w := rest.takeWhile isWordChar
    if w.isEmpty then none
    else
      match rest.drop w.length with
      | '(' :: body =>
        match findParenBracket body with
        | some j => some ⟨w ++ '(' :: body.take j ++ [')']⟩
        | none => none
      | _ => none
  | _ => none

/-- `re.search` for strategy 3: leftmost matching position. -/
def strategy3 : List Char → Option String
  | [] => none
  | c :: t =>
    match bracketAt (c :: t) with
    | some g => some g
    | none => strategy3 t

/-- Extraction strategy 4 at one position: a known tool name followed by a
parenthesised argument span without a closing parenthesis inside. -/
def bareAt (s : List Char) : Option String :=
  match KNOWN_TOOLS.find? (fun n => n.toList.isPrefixOf s) with
  | none => none
  | some n =>
    match s.drop n.length with
    | '(' :: rest =>
      let inner := rest.takeWhile (fun c => c ≠ ')')
      match rest.drop inner.length with
      | ')' :: _ => some (n ++ "(" ++ ⟨inner⟩ ++ ")")
      | _ => none
    | _ => none

/-- `re.search` for strategy 4: leftmost matching position. -/
def strategy4 : List Char → Option String
  | [] => none
  | c :: t =>
    match bareAt (c :: t) with
    | some g => some g
    | none => strategy4 t

/-- Strategies 3 and 4 composed with first-success semantics. -/
def strategies34 (resp : String) : Option ToolCall :=
  match (strategy3 resp.toList).bind parseNative with
  | some tc => some tc
  | none => (strategy4 resp.toList).bind parseNative

/-- The params value put through `parsed.get("params",
parsed.get("parameters", {}))` by the JSON strategy. -/
def coerceParams (v : PyVal) : List (String × PyVal) :=
  match v with
  | .vdict kvs => kvs
  | _ => []

/-- `agent.Agent._parse_tool_call`: the four extraction strategies in order.
The JSON strategy transcribes `if parsed and "name" in parsed`, whose Python
semantics depend on the parsed value: on a truthy list or string, `in` is
membership/substring search and a hit leads to `parsed["name"]`, which raises
a `TypeError`; on a truthy number or boolean, `in` itself raises. -/
def parseToolCallE (resp : String) : Except Unit (Option ToolCall) :=
  match (strategy1 resp).bind parseNative with
  | some tc => .ok (some tc)
  | none =>
    match parse_json resp with
    | some v =>
      if pyTruthy v then
        match v with
        | .vdict kvs =>
          if pyHasKey kvs "name" then
            .ok (some ⟨(pyGet kvs "name").getD .vnone,
              coerceParams (pyGetD kvs "params" (pyGetD kvs "parameters" (.vdict [])))⟩)
          else .ok (strategies34 resp)
        | .vstr s =>
          if strHasSub s "name" then .error () else .ok (strategies34 resp)
        | .vlist xs =>
          if pyListHasStr xs "name" then .error () else .ok (strategies34 resp)
        | _ => .error ()
      else .ok (strategies34 resp)
    | none => .ok (strategies34 resp)

/-! ### `agent.py` — followup heuristic and agent loop -/

/-- A conversation message. -/
structure Msg where
  role : String
  content : String

/-- `agent.Agent._FOLLOWUP_STOPWORDS` (contractions are assembled around the
apostrophe character). -/
def FOLLOWUP_STOPWORDS : List String :=
  let apo := sqChar.toString
  ["many", "much", "some", "any", "all", "most", "few", "more", "less",
   "have", "has", "had", "get", "got", "find", "show", "list", "give",
   "what", "which", "where", "when", "how", "why", "who",
   "there", "here", "this", "that", "these", "those",
   "file", "files", "folder", "folders", "directory", "directories",
   "structure", "count", "number", "total", "size",
   "can", "could", "would", "should", "will", "might",
   "about", "just", "only", "also", "even", "still",
   "aren" ++ apo ++ "t", "isn" ++ apo ++ "t", "don" ++ apo ++ "t",
   "doesn" ++ apo ++ "t", "didn" ++ apo ++ "t", "won" ++ apo ++ "t",
   "final", "question", "answer", "help", "please", "thanks",
   "test", "magic", "stuff", "thing", "things",
   "top", "biggest", "largest", "smallest", "heaviest", "least", "fewest",
   "image", "images", "picture", "pictures", "photo", "photos",
   "drawing", "drawings"]

/-- The local `_covered` of `_needs_followup`: exact substring hit, or a hit
of the plural-stripped stem when it keeps at least 3 characters. -/
def covered (kw text : String) : Bool :=
  strHasSub text kw ||
  (let stem := rstripChars ['s'] kw
   stem.length ≥ 3 && strHasSub text stem)

/-- The single message pass of `_needs_followup`: concatenate lower-cased
tool/assistant contents (with a trailing space each) and collect the `tool`
field of every tool message whose content is a JSON dict. -/
def followupScan (msgs : List Msg) : String × List PyVal :=
  msgs.foldl (fun acc m =>
    if m.role == "tool" then
      let withText := acc.1 ++ pyLower m.content ++ " "
      match jsonLoads m.content with
      | some (.vdict kvs) =>
        if pyHasKey kvs "tool" then
          (withText, acc.2 ++ [(pyGet kvs "tool").getD .vnone])
        else (withText, acc.2)
      | _ => (withText, acc.2)
    else if m.role == "assistant" then (acc.1 ++ pyLower m.content ++ " ", acc.2)
    else acc) ("", [])

/-- `agent.Agent._needs_followup`. -/
def needsFollowup (query : String) (msgs : List Msg) : Option ToolCall :=
  let keywords := (extract_keywords query).filter
    (fun kw => !FOLLOWUP_STOPWORDS.contains kw)
  if keywords.isEmpty then none
  else
    let scanned := followupScan msgs
    let missing := keywords.filter (fun kw => !covered kw scanned.1)
    if missing.isEmpty then none
    else if !pyListHasStr scanned.2 "semantic_search" then
      some ⟨.vstr "semantic_search", [("query", .vstr (joinWith " " missing))]⟩
    else if !pyListHasStr scanned.2 "grep_files" then
      some ⟨.vstr "grep_files", [("pattern", .vstr (missing.headD ""))]⟩
    else none

/-- Specification-side keyword survivors: query keywords after both stopword
filters. -/
def followupSurviving (q : String) : List String :=
  (extract_keywords q).filter (fun kw => !FOLLOWUP_STOPWORDS.contains kw)

/-- Specification-side coverage text: the concatenated lower-cased text of
the prior tool and assistant messages. -/
def priorText (msgs : List Msg) : String :=
  msgs.foldl (fun t m =>
    if m.role == "tool" || m.role == "assistant" then t ++ pyLower m.content ++ " "
    else t) ""

/-- Specification-side used-tool trace: the `tool` fields of the JSON tool
messages. -/
def usedTools (msgs : List Msg) : List PyVal :=
  msgs.foldl (fun u m =>
    if m.role == "tool" then
      match jsonLoads m.content with
      | some (.vdict kvs) =>
        if pyHasKey kvs "tool" then u ++ [(pyGet kvs "tool").getD .vnone] else u
      | _ => u
    else u) []

/-- The followup heuristic as the specification describes it: propose content
search for the uncovered keywords unless already used this run, else the
filename grep unless already used, else nothing; nothing when no keywords
survive or all are covered. -/
def followupSpec (q : String) (msgs : List Msg) : Option ToolCall :=
  let missing := (followupSurviving q).filter
    (fun kw => !covered kw (priorText msgs))
  if missing.isEmpty then none
  else if !pyListHasStr (usedTools msgs) "semantic_search" then
    some ⟨.vstr "semantic_search", [("query", .vstr (joinWith " " missing))]⟩
  else if !pyListHasStr (usedTools msgs) "grep_files" then
    some ⟨.vstr "grep_files", [("pattern", .vstr (missing.headD ""))]⟩
  else none

/-- `agent.Agent.MAX_STEPS`. -/
def MAX_STEPS : Nat := 5

/-- The collaborators of one `Agent`: the model oracle (indexed by the number
of `generate` calls the agent itself has issued), the tool registry as the
agent consumes it (a `(text, sources)` pair per dispatch), the fallback
router, and whether a query rewriter is configured. -/
structure AgentEnv where
  gen : Nat → String
  tools : PyVal → List (String × PyVal) → String × List String
  router : String → Option String → String × List (String × PyVal)
  rewriter : Bool

/-- The observable outcome of one `Agent.run`, instrumented: the returned
answer and source list, plus the raw accumulated sources before the
return-site deduplication, the number of `generate` calls the agent itself
issued, whether a Python exception escaped, and the `on_step` trace of
dispatched tool names. -/
structure RunOut where
  answer : String
  sources : List String
  accum : List String
  gcalls : Nat
  exc : Bool
  dispatched : List PyVal

/-- The JSON-encoded tool message appended after a dispatch. -/
def dumpsToolMsg (name : PyVal) (result : String) : String :=
  jsonDumps (.vdict [("tool", name), ("result", .vstr result)])

/-- Python `l[-n:]`. -/
def lastN (n : Nat) (l : List Msg) : List Msg := l.drop (l.length - n)

/-- The initial message list: system prompt, the last 4 history messages, the
(possibly rewritten) user query.  The system prompt text never feeds anything
but the model oracle, so its schema serialization is not reconstructed. -/
def msgInit (history : List Msg) (effective : String) : List Msg :=
  ⟨"system", "You are a file assistant."⟩ :: lastN 4 history ++
    [⟨"user", effective⟩]

/-- The per-step loop of `agent.Agent.run`.  Arguments: remaining budget,
current step index, model-call counter, message list, accumulated sources,
dispatch trace.  Exhausted budget forces one final synthesis call whose text
is returned as is. -/
def loopAux (env : AgentEnv) (query : String) (rw : Option RewriteResult)
    (fuel step k : Nat) (msgs : List Msg) (accum : List String)
    (disp : List PyVal) : RunOut :=
  match fuel with
  | 0 =>
    ⟨env.gen k, pyDedup accum, accum, k + 1, false, disp⟩
  | fuel + 1 =>
    let raw := env.gen k
    match parseToolCallE raw with
    | .error _ => ⟨"", [], accum, k + 1, true, disp⟩
    | .ok none =>
      if step = 0 then
        let intent := rw.map (fun r => r.intent)
        let routed := env.router query intent
        let search_query := match rw with
          | some r => r.search_query
          | none => query
        let params :=
          if routed.1 == "semantic_search" then
            pySet routed.2 "query" (.vstr search_query)
          else routed.2
        let execd := env.tools (.vstr routed.1) params
        loopAux env query rw fuel (step + 1) (k + 1)
          (msgs ++ [⟨"assistant", raw⟩,
            ⟨"tool", dumpsToolMsg (.vstr routed.1) execd.1⟩])
          (accum ++ execd.2) (disp ++ [.vstr routed.1])
      else
        match needsFollowup query msgs with
        | some fc =>
          let execd := env.tools fc.name fc.params
          loopAux env query rw fuel (step + 1) (k + 1)
            (msgs ++ [⟨"assistant", raw⟩, ⟨"tool", dumpsToolMsg fc.name execd.1⟩])
            (accum ++ execd.2) (disp ++ [fc.name])
        | none => ⟨raw, pyDedup accum, accum, k + 1, false, disp⟩
    | .ok (some tc) =>
      if pyIsStr tc.name "respond" then
        let ans := match pyGet tc.params "answer" with
          | some v => pyFormat v
          | none => raw
        ⟨ans, pyDedup accum, accum, k + 1, false, disp⟩
      else
        let execd := env.tools tc.name tc.params
        loopAux env query rw fuel (step + 1) (k + 1)
          (msgs ++ [⟨"assistant", raw⟩, ⟨"tool", dumpsToolMsg tc.name execd.1⟩])
          (accum ++ execd.2) (disp ++ [tc.name])

/-- `agent.Agent.run`, instrumented.  A configured rewriter issues one model
call before the loop; a rewrite crash (non-dict JSON) escapes `run`. -/
def runAux (env : AgentEnv) (query : String) (history : List Msg) : RunOut :=
  if env.rewriter then
    match rewriteOfE query (env.gen 0) with
    | .error _ => ⟨"", [], [], 1, true, []⟩
    | .ok rw =>
      loopAux env query (some rw) MAX_STEPS 0 1
        (msgInit history rw.resolved_query) [] []
  else
    loopAux env query none MAX_STEPS 0 0 (msgInit history query) [] []

/-- The `(answer, sources)` pair `Agent.run` returns. -/
def runPair (env : AgentEnv) (query : String) (history : List Msg) :
    String × List String :=
  ((runAux env query history).answer, (runAux env query history).sources)

/-! ### `tools.py` — the tool registry -/

/-- The filesystem toolbox collaborator, one function per operation the
registry dispatches to, each returning the bare string the toolbox
produces. -/
structure ToolboxCalls where
  count_files : PyVal → String
  list_recent_files : PyVal → PyVal → PyVal → String
  get_file_metadata : PyVal → String
  grep : PyVal → String
  tree : PyVal → String
  folder_stats : PyVal → PyVal → String
  disk_usage : String

/-- The collaborators of one `ToolRegistry`. -/
structure RegistryEnv where
  searchAndExtract : PyVal → Int → String
  tb : ToolboxCalls

/-- Python `min(v, cap)` for the `top_k` parameter (a non-number raises). -/
def pyMinIntE (v : PyVal) (cap : Int) : Except Unit Int :=
  match v with
  | .vint n => .ok (min n cap)
  | .vbool b => .ok (min (if b then (1 : Int) else 0) cap)
  | _ => .error ()

/-- `tools.ToolRegistry.execute`: string-keyed dispatch over the handler
table; an unknown name yields the soft `Unknown tool` string.  Every branch
returns a bare string — exactly as the source does. -/
def executeE (env : RegistryEnv) (tool_name : String)
    (params : List (String × PyVal)) : Except Unit String :=
  match tool_name with
  | "semantic_search" =>
    match pyMinIntE (pyGetD params "top_k" (.vint 5)) 10 with
    | .ok k => .ok (env.searchAndExtract (pyGetD params "query" (.vstr "")) k)
    | .error e => .error e
  | "count_files" => .ok (env.tb.count_files (pyGetD params "extension" .vnone))
  | "list_files" =>
    .ok (env.tb.list_recent_files (pyGetD params "extension" .vnone)
      (pyGetD params "limit" (.vint 10)) (pyGetD params "sort_by" (.vstr "date")))
  | "file_metadata" =>
    .ok (env.tb.get_file_metadata (pyGetD params "name_hint" .vnone))
  | "grep_files" => .ok (env.tb.grep (pyGetD params "pattern" (.vstr "")))
  | "directory_tree" => .ok (env.tb.tree (pyGetD params "max_depth" (.vint 2)))
  | "folder_stats" =>
    .ok (env.tb.folder_stats (pyGetD params "sort_by" (.vstr "size"))
      (pyGetD params "limit" (.vint 10)))
  | "disk_usage" => .ok env.tb.disk_usage
  | _ => .ok ("Unknown tool: " ++ tool_name)

/-! ### Concrete demonstration environments -/

/-- An agent environment with a configured rewriter whose model always emits
a delimited `semantic_search` call, so every loop step dispatches a tool and
the budget is exhausted. -/
def envC2 : AgentEnv where
  gen := fun _ =>
    "<|tool_call_start|>[semantic_search(query=" ++ dqChar.toString ++ "x" ++
      dqChar.toString ++ ")]<|tool_call_end|>"
  tools := fun _ _ => ("r", [])
  router := fun q _ => ("semantic_search", [("query", PyVal.vstr q)])
  rewriter := false

/-- `envC2` with the rewriter configured. -/
def envC2r : AgentEnv :=
  { envC2 with rewriter := true }

/-- An agent environment whose tool dispatches all surface the same source,
so the accumulated source list holds duplicates. -/
def envC7 : AgentEnv where
  gen := fun k =>
    if k < 2 then
      "[semantic_search(query=" ++ dqChar.toString ++ "x" ++ dqChar.toString ++ ")]"
    else "done"
  tools := fun _ _ => ("r", ["a.pdf"])
  router := fun q _ => ("semantic_search", [("query", PyVal.vstr q)])
  rewriter := false

/-- Model responses mirroring the repository test in which the model calls
one tool and then stops answering while a query keyword stays uncovered. -/
def genC8 : Nat → String
  | 0 => "[count_files(extension=" ++ dqChar.toString ++ "pdf" ++ dqChar.toString ++ ")]"
  | 1 => "There are 25 PDFs."
  | 2 => "Still 25 PDFs."
  | _ => "I found some results."

/-- Tool results for the followup demonstration (none of them mention the
query keyword). -/
def toolsC8 : PyVal → List (String × PyVal) → String × List String := fun n _ =>
  if pyIsStr n "count_files" then ("Found 25 .pdf files.", [])
  else if pyIsStr n "grep_files" then ("No matching files found.", [])
  else if pyIsStr n "semantic_search" then ("No results found.", [])
  else ("Unknown tool", [])

/-- The followup demonstration environment. -/
def envC8 : AgentEnv where
  gen := genC8
  tools := toolsC8
  router := fun q _ => ("semantic_search", [("query", PyVal.vstr q)])
  rewriter := false

/-- An agent environment whose model emits a terminal `respond` call carrying
no `answer` argument. -/
def envC10 : AgentEnv where
  gen := fun _ => "respond(x=1)"
  tools := fun _ _ => ("r", [])
  router := fun q _ => ("semantic_search", [("query", PyVal.vstr q)])
  rewriter := false

/-- A file reader returning readable text for every path. -/
def readerFB : String → String := fun _ => "Factura fiscala nr. 999"

/-- A toolbox file listing holding one file whose name matches the keyword
`macbook`. -/
def filesFB : List PathT := [⟨"/data", "macbook_ssd.pdf"⟩]

/-- A model oracle whose every response parses to no JSON at all. -/
def genNoJson : Nat → String := fun _ => "not json"

/-- A search environment with empty retrieval but a configured file reader
and toolbox whose grep would match. -/
def envC3 : SearchEnv where
  leann := fun _ _ => []
  gen := genNoJson
  reader := some readerFB
  files := some filesFB

/-- One retrieval chunk (no score pre-filter applies to a single chunk). -/
def chunkFB : Chunk where
  id := "1"
  text := "unrelated meeting notes"
  score := 9 / 10
  metadata := [("file_name", PyVal.vstr "file0.txt")]

/-- A search environment with one retrieved chunk whose fact extraction
yields nothing, so the filename fallback runs. -/
def envC3b : SearchEnv where
  leann := fun _ _ => [chunkFB]
  gen := genNoJson
  reader := some readerFB
  files := some filesFB

/-! ### Helper lemmas: first-seen deduplication -/

theorem keepFirsts_nil : keepFirsts [] = [] := by
  rw [keepFirsts]

theorem keepFirsts_cons (x : String) (xs : List String) :
    keepFirsts (x :: xs) = x :: keepFirsts (xs.filter (fun a => a ≠ x)) := by
  rw [keepFirsts]

theorem keepFirsts_mem : ∀ (l : List String) (a : String),
    a ∈ keepFirsts l → a ∈ l
  | [], a, h => by rw [keepFirsts_nil] at h; cases h
  | x :: xs, a, h => by
    rw [keepFirsts_cons] at h
    rcases List.mem_cons.mp h with h | h
    · exact h ▸ List.mem_cons_self _ _
    · exact List.mem_cons_of_mem _
        (List.mem_of_mem_filter (keepFirsts_mem (xs.filter (fun a => a ≠ x)) a h))
termination_by l => l.length
decreasing_by
  simp only [List.length_cons]
  exact Nat.lt_succ_of_le (List.length_filter_le _ _)

theorem keepFirsts_sublist : ∀ (l : List String), List.Sublist (keepFirsts l) l
  | [] => by rw [keepFirsts_nil]
  | x :: xs => by
    rw [keepFirsts_cons]
    exact List.Sublist.cons₂ x
      ((keepFirsts_sublist (xs.filter (fun a => a ≠ x))).trans
        (List.filter_sublist xs))
termination_by l => l.length
decreasing_by
  simp only [List.length_cons]
  exact Nat.lt_succ_of_le (List.length_filter_le _ _)

theorem keepFirsts_nodup : ∀ (l : List String), (keepFirsts l).Nodup
  | [] => by rw [keepFirsts_nil]; exact List.nodup_nil
  | x :: xs => by
    rw [keepFirsts_cons]
    refine List.nodup_cons.mpr ⟨?_, keepFirsts_nodup (xs.filter (fun a => a ≠ x))⟩
    intro hmem
    have hx := keepFirsts_mem _ _ hmem
    have := List.of_mem_filter hx
    simp at this
termination_by l => l.length
decreasing_by
  simp only [List.length_cons]
  exact Nat.lt_succ_of_le (List.length_filter_le _ _)

theorem pyDedupAux_eq (l : List String) : ∀ (seen : List String),
    pyDedupAux seen l = keepFirsts (l.filter (fun a => a ∉ seen)) := by
  induction l with
  | nil => intro seen; simp [pyDedupAux, keepFirsts_nil]
  | cons x xs ih =>
    intro seen
    by_cases hx : x ∈ seen
    · rw [List.filter_cons_of_neg (by simp [hx])]
      simp only [pyDedupAux, if_pos hx]
      exact ih seen
    · rw [List.filter_cons_of_pos (by simp [hx])]
      simp only [pyDedupAux, if_neg hx]
      rw [keepFirsts_cons, List.filter_filter, ih (x :: seen)]
      have hfe : List.filter (fun a => decide (a ∉ x :: seen)) xs =
          List.filter (fun a => decide (a ≠ x) && decide (a ∉ seen)) xs := by
        apply List.filter_congr
        intro a _
        by_cases hax : a = x <;> by_cases has : a ∈ seen <;>
          simp [hax, has]
      rw [hfe]

theorem pyDedup_eq_keepFirsts (l : List String) : pyDedup l = keepFirsts l := by
  have h := pyDedupAux_eq l []
  simpa [pyDedup] using h

/-! ### Helper lemmas: the agent loop -/

theorem loopAux_gcalls (env : AgentEnv) (query : String)
    (rw : Option RewriteResult) : ∀ (fuel step k : Nat) (msgs : List Msg)
      (accum : List String) (disp : List PyVal),
    (loopAux env query rw fuel step k msgs accum disp).gcalls ≤ k + fuel + 1 := by
  intro fuel
  induction fuel with
  | zero => intro step k msgs accum disp; simp [loopAux]
  | succ n ih =>
    intro step k msgs accum disp
    simp only [loopAux]
    split
    · show k + 1 ≤ k + (n + 1) + 1
      omega
    · split
      · exact le_trans (ih (step + 1) (k + 1) _ _ _) (by omega)
      · split
        · exact le_trans (ih (step + 1) (k + 1) _ _ _) (by omega)
        · show k + 1 ≤ k + (n + 1) + 1
          omega
    · split
      · show k + 1 ≤ k + (n + 1) + 1
        omega
      · exact le_trans (ih (step + 1) (k + 1) _ _ _) (by omega)

theorem loopAux_shape (env : AgentEnv) (query : String)
    (rw : Option RewriteResult) : ∀ (fuel step k : Nat) (msgs : List Msg)
      (accum : List String) (disp : List PyVal),
    (loopAux env query rw fuel step k msgs accum disp).exc = true ∨
    (loopAux env query rw fuel step k msgs accum disp).sources =
      pyDedup (loopAux env query rw fuel step k msgs accum disp).accum := by
  intro fuel
  induction fuel with
  | zero => intro step k msgs accum disp; right; simp [loopAux]
  | succ n ih =>
    intro step k msgs accum disp
    simp only [loopAux]
    split
    · left; rfl
    · split
      · exact ih (step + 1) (k + 1) _ _ _
      · split
        · exact ih (step + 1) (k + 1) _ _ _
        · right; rfl
    · split
      · right; rfl
      · exact ih (step + 1) (k + 1) _ _ _

theorem runAux_shape (env : AgentEnv) (query : String) (history : List Msg) :
    (runAux env query history).exc = true ∨
    (runAux env query history).sources =
      pyDedup ((runAux env query history).accum) := by
  unfold runAux
  cases hrw : env.rewriter with
  | false =>
    simp only [Bool.false_eq_true, if_false]
    exact loopAux_shape env query none MAX_STEPS 0 0 _ [] []
  | true =>
    simp only [if_true]
    cases hw : rewriteOfE query (env.gen 0) with
    | error e => left; rfl
    | ok rw0 => exact loopAux_shape env query (some rw0) MAX_STEPS 0 1 _ [] []

/-! ### C2 — the model-call budget of one run -/

/-- Claim C2, counterexample: with a rewriter configured and a model that
emits a tool call at every step, one run issues 7 `generate` calls — more
than the `MAX_STEPS + 1 = 6` the claim allows. -/
theorem C2_counterexample :
    (runAux envC2r "q" []).gcalls = 7 ∧
    ¬ ((runAux envC2r "q" []).gcalls ≤ MAX_STEPS + 1) := by
  constructor
  · rfl
  · intro h
    have : (7 : Nat) ≤ 6 := by
      have he : (runAux envC2r "q" []).gcalls = 7 := rfl
      rw [he] at h
      exact h
    omega

/-- Claim C2 (amended): one invocation of `Agent.run` issues at most
`MAX_STEPS + 1 = 6` calls to the model's generate operation when no query
rewriter is configured, and at most `MAX_STEPS + 2 = 7` when one is (the
rewrite pre-pass itself issues one generate call); the count covers the calls
issued by `Agent.run` directly (one per loop step, the forced final
synthesis, and the rewrite), not calls a dispatched tool makes internally. -/
theorem C2_model_call_bound (env : AgentEnv) (query : String)
    (history : List Msg) :
    (runAux env query history).gcalls ≤
      (if env.rewriter then MAX_STEPS + 2 else MAX_STEPS + 1) := by
  unfold runAux
  cases hrw : env.rewriter with
  | false =>
    simp only [Bool.false_eq_true, if_false]
    have h := loopAux_gcalls env query none MAX_STEPS 0 0
      (msgInit history query) [] []
    exact le_trans h (by simp [MAX_STEPS])
  | true =>
    simp only [if_true]
    cases hw : rewriteOfE query (env.gen 0) with
    | error e => simp [MAX_STEPS]
    | ok rw0 =>
      have h := loopAux_gcalls env query (some rw0) MAX_STEPS 0 1
        (msgInit history rw0.resolved_query) [] []
      exact le_trans h (by simp [MAX_STEPS])

/-! ### C7 — sources: first-seen deduplication at the point of return -/

/-- Claim C7: every completed run returns a source list equal to the
first-appearance deduplication of the accumulated sources — duplicate-free
and a sublist of the accumulation (so relative order is preserved) — while
the accumulation itself may contain duplicates, as the concrete run `envC7`
shows: its accumulated list is not duplicate-free, yet the returned list
is. -/
theorem C7_dedup_on_return :
    (∀ (env : AgentEnv) (query : String) (history : List Msg),
      (runAux env query history).exc = false →
      (runAux env query history).sources =
          keepFirsts ((runAux env query history).accum) ∧
        ((runAux env query history).sources).Nodup ∧
        List.Sublist ((runAux env query history).sources)
          ((runAux env query history).accum)) ∧
    ¬ ((runAux envC7 "zebra quest" []).accum).Nodup ∧
    ((runAux envC7 "zebra quest" []).sources).Nodup := by
  refine ⟨?_, ?_, ?_⟩
  · intro env query history hexc
    rcases runAux_shape env query history with h | h
    · rw [hexc] at h
      exact absurd h (by decide)
    · rw [pyDedup_eq_keepFirsts] at h
      refine ⟨h, ?_, ?_⟩
      · rw [h]
        exact keepFirsts_nodup _
      · rw [h]
        exact keepFirsts_sublist _
  · have he : (runAux envC7 "zebra quest" []).accum =
        ["a.pdf", "a.pdf", "a.pdf"] := rfl
    rw [he]
    decide
  · have he : (runAux envC7 "zebra quest" []).sources = ["a.pdf"] := rfl
    rw [he]
    decide

/-- Witness for C7 at the concrete run `envC7`: the run completes and the
theorem's conclusions hold there. -/
theorem C7_dedup_on_return_witness :
    (runAux envC7 "zebra quest" []).exc = false ∧
    (runAux envC7 "zebra quest" []).sources =
      keepFirsts ((runAux envC7 "zebra quest" []).accum) :=
  ⟨rfl, (C7_dedup_on_return.1 envC7 "zebra quest" [] rfl).1⟩

/-! ### C5 — rewrite fallback on unparseable model output -/

/-- Claim C5: when the model's rewrite output is not parseable JSON (the
shared parser returns nothing), `QueryRewriter.rewrite` returns exactly the
pass-through triple `(factual, query, query)` and raises nothing. -/
theorem C5_rewrite_fallback (q raw : String) (h : parse_json raw = none) :
    rewriteOfE q raw = .ok ⟨"factual", q, q⟩ := by
  unfold rewriteOfE
  rw [h]
  rfl

/-- Witness for C5 on a concrete unparseable response. -/
theorem C5_rewrite_fallback_witness :
    parse_json "???" = none ∧
    rewriteOfE "any invoices" "???" =
      .ok ⟨"factual", "any invoices", "any invoices"⟩ :=
  ⟨rfl, C5_rewrite_fallback "any invoices" "???" rfl⟩

/-! ### C6 — router totality and its default route -/

/-- Claim C6, counterexample: on the query `qqq` no keyword or phrase rule
matches, yet with intent `metadata` the router returns the folder-stats tool,
not content search — the claim's unconditional default does not hold for
every intent value. -/
theorem C6_counterexample :
    anyIn routeSizeKws (pyLower "qqq") = false ∧
    anyIn routeCountKws (pyLower "qqq") = false ∧
    anyIn routeTreeKws (pyLower "qqq") = false ∧
    anyIn routeMetaKws (pyLower "qqq") = false ∧
    route "qqq" (some "metadata") =
      ("folder_stats", [("sort_by", PyVal.vstr "size")]) ∧
    ("folder_stats" : String) ≠ "semantic_search" :=
  ⟨rfl, rfl, rfl, rfl, rfl, by decide⟩

/-- Claim C6 (amended): `route` is total by construction, and whenever no
keyword or phrase rule matches the lower-cased query **and** the supplied
intent is not `metadata` (the one intent value that triggers a rule without
any keyword), it routes to content search with the original, uncased query
as the `query` parameter. -/
theorem C6_default_route (q : String) (intent : Option String)
    (h1 : anyIn routeSizeKws (pyLower q) = false)
    (h2 : anyIn routeCountKws (pyLower q) = false)
    (h3 : anyIn routeTreeKws (pyLower q) = false)
    (h4 : anyIn routeMetaKws (pyLower q) = false)
    (h5 : intent ≠ some "metadata") :
    route q intent = ("semantic_search", [("query", PyVal.vstr q)]) := by
  have hi : (intent == some "metadata") = false := beq_eq_false_iff_ne.mpr h5
  unfold route
  simp [hi, h1, h2, h3, h4]

/-- Witness for C6 on the unmatched query `hello` with no intent. -/
theorem C6_default_route_witness :
    route "hello" none = ("semantic_search", [("query", PyVal.vstr "hello")]) :=
  C6_default_route "hello" none rfl rfl rfl rfl (by decide)

/-! ### C10 — terminal `respond` call without an `answer` argument -/

/-- Claim C10: when the tool call extracted at a loop step is the terminal
tool `respond` but its params map holds no `answer` key, the run ends at that
step and returns the entire raw model response as the answer, together with
the deduplicated source list accumulated so far. -/
theorem C10_respond_without_answer (env : AgentEnv) (query : String)
    (rw : Option RewriteResult) (fuel step k : Nat) (msgs : List Msg)
    (accum : List String) (disp : List PyVal) (tc : ToolCall)
    (hp : parseToolCallE (env.gen k) = .ok (some tc))
    (hname : tc.name = PyVal.vstr "respond")
    (hans : pyGet tc.params "answer" = none) :
    loopAux env query rw (fuel + 1) step k msgs accum disp =
      ⟨env.gen k, pyDedup accum, accum, k + 1, false, disp⟩ := by
  simp only [loopAux, hp, hname, hans, pyIsStr]
  simp

/-- Witness for C10: a run whose model emits `respond(x=1)` (no `answer`)
ends at the first step with the raw response as the answer. -/
theorem C10_respond_without_answer_witness :
    parseToolCallE (envC10.gen 0) =
      .ok (some ⟨PyVal.vstr "respond", [("x", PyVal.vint 1)]⟩) ∧
    loopAux envC10 "q" none 5 0 0 (msgInit [] "q") [] [] =
      ⟨"respond(x=1)", [], [], 1, false, []⟩ := by
  refine ⟨rfl, ?_⟩
  have h := C10_respond_without_answer envC10 "q" none 4 0 0 (msgInit [] "q")
    [] [] ⟨PyVal.vstr "respond", [("x", PyVal.vint 1)]⟩ rfl rfl rfl
  exact h

/-! ### C4 — the tool-call extractor raises, and retypes quoted literals -/

/-- Claim C4, evaluated at the failing inputs: on the response `["name"]`
(valid JSON: a list holding the string `name`) the extractor raises a
`TypeError` instead of returning a call or nothing — `if parsed and "name" in
parsed` succeeds by list membership and `parsed["name"]` then indexes a list
with a string; and a quoted integer literal argument is retyped to an int
(the quotes are stripped before the type dispatch), not kept as the unquoted
string. -/
theorem C4_extractor_failures :
    parseToolCallE "[\"name\"]" = .error () ∧
    parseToolCallE ("file_metadata(name_hint=" ++ dqChar.toString ++ "42" ++
        dqChar.toString ++ ")") =
      .ok (some ⟨PyVal.vstr "file_metadata", [("name_hint", PyVal.vint 42)]⟩) ∧
    PyVal.vint 42 ≠ PyVal.vstr "42" :=
  ⟨rfl, rfl, fun h => PyVal.noConfusion h⟩

/-! ### C1 — the registry and searcher return bare strings, not pairs -/

/-- Claim C1, evaluated on the code as written: `ToolRegistry.execute`
returns the dispatched handler's bare string (here the toolbox collaborator's
`count_files` text, and the `Unknown tool` soft error), and
`Searcher.search_and_extract` likewise returns a bare string — there is no
`(text, sources)` pair anywhere in either return path, although the
repository's own tests and the agent loop unpack one. -/
theorem C1_registry_returns_bare_strings (env : RegistryEnv) :
    executeE env "count_files" [] = .ok (env.tb.count_files PyVal.vnone) ∧
    executeE env "nonexistent_tool" [] = .ok "Unknown tool: nonexistent_tool" ∧
    searchAndExtractE envC3 "budget" 5 = .ok "No matching content found." :=
  ⟨rfl, rfl, rfl⟩

/-! ### C8 — the followup heuristic -/

theorem followupScan_eq (msgs : List Msg) :
    followupScan msgs = (priorText msgs, usedTools msgs) := by
  unfold followupScan priorText usedTools
  suffices h : ∀ (a : String) (b : List PyVal),
      msgs.foldl (fun acc m =>
        if m.role == "tool" then
          let withText := acc.1 ++ pyLower m.content ++ " "
          match jsonLoads m.content with
          | some (.vdict kvs) =>
            if pyHasKey kvs "tool" then
              (withText, acc.2 ++ [(pyGet kvs "tool").getD .vnone])
            else (withText, acc.2)
          | _ => (withText, acc.2)
        else if m.role == "assistant" then
          (acc.1 ++ pyLower m.content ++ " ", acc.2)
        else acc) (a, b) =
      (msgs.foldl (fun t m =>
        if m.role == "tool" || m.role == "assistant" then
          t ++ pyLower m.content ++ " "
        else t) a,
       msgs.foldl (fun u m =>
        if m.role == "tool" then
          match jsonLoads m.content with
          | some (.vdict kvs) =>
            if pyHasKey kvs "tool" then u ++ [(pyGet kvs "tool").getD .vnone]
            else u
          | _ => u
        else u) b) by
    exact h "" []
  induction msgs with
  | nil => intro a b; rfl
  | cons m rest ih =>
    intro a b
    simp only [List.foldl_cons]
    cases ht : (m.role == "tool") with
    | true =>
      simp only [ht, if_true, Bool.true_or]
      cases hj : jsonLoads m.content with
      | none => exact ih _ _
      | some v =>
        cases v with
        | vdict kvs =>
          cases hk : pyHasKey kvs "tool" with
          | true => simp only [hk, if_true]; exact ih _ _
          | false => simp only [hk, Bool.false_eq_true, if_false]; exact ih _ _
        | vnone => exact ih _ _
        | vbool x => exact ih _ _
        | vint x => exact ih _ _
        | vfloat x => exact ih _ _
        | vstr x => exact ih _ _
        | vlist x => exact ih _ _
    | false =>
      simp only [ht, Bool.false_eq_true, if_false, Bool.false_or]
      cases ha : (m.role == "assistant") with
      | true => simp only [ha, if_true]; exact ih _ _
      | false =>
        simp only [ha, Bool.false_eq_true, if_false]
        exact ih a b

/-- Claim C8: the followup heuristic behaves exactly as specified — it fires
content search when some surviving query keyword is uncovered in the
concatenated prior tool/assistant text and content search is untried this
run, else the filename grep when untried, else nothing (and nothing when no
keyword survives or all are covered); and on the concrete run `envC8`, where
the model stops cooperating, each secondary tool is dispatched exactly once
before the loop accepts the model's text as the answer. -/
theorem C8_followup_characterisation :
    (∀ (q : String) (msgs : List Msg),
      needsFollowup q msgs = followupSpec q msgs) ∧
    (runAux envC8 "any macbook pdfs" []).dispatched =
      [PyVal.vstr "count_files", PyVal.vstr "semantic_search",
       PyVal.vstr "grep_files"] ∧
    (runAux envC8 "any macbook pdfs" []).answer = "I found some results." := by
  refine ⟨?_, rfl, rfl⟩
  intro q msgs
  unfold needsFollowup followupSpec followupSurviving
  rw [followupScan_eq]
  cases hke : ((extract_keywords q).filter
      (fun kw => !FOLLOWUP_STOPWORDS.contains kw)).isEmpty with
  | true =>
    have hnil := List.isEmpty_iff.mp hke
    rw [hnil]
    rfl
  | false =>
    simp only [hke, Bool.false_eq_true, if_false]

/-! ### C3 — recovery behaviour of `search_and_extract` -/

/-- Claim C3, counterexample: with a file reader and toolbox configured whose
filename grep would surface a file, empty retrieval still returns the fixed
`No matching content found.` message at once — no unfiltered retry and no
filename-grep fallback happens, as the differing output of the fallback on
the same collaborators shows. -/
theorem C3_counterexample :
    envC3.reader.isSome = true ∧ envC3.files.isSome = true ∧
    searchAndExtractE envC3 "macbook invoice" 5 =
      .ok "No matching content found." ∧
    filenameFallbackE readerFB filesFB envC3.gen "macbook invoice" 0 =
      .ok "From macbook_ssd.pdf:\n  - File found: macbook_ssd.pdf" ∧
    ("No matching content found." : String) ≠
      "From macbook_ssd.pdf:\n  - File found: macbook_ssd.pdf" :=
  ⟨rfl, rfl, rfl, rfl, by decide⟩

/-- Claim C3 (amended): when retrieval returns no chunks,
`search_and_extract` returns the fixed `No matching content found.` message
immediately, attempting no fallback of any kind; the filename-grep fallback
(when a file reader and toolbox are configured) runs only in the other
no-result case — retrieval returned chunks but fact extraction yielded
nothing — before the distinct `none were relevant` message, as the concrete
run on `envC3b` shows; `search_and_extract` performs no unfiltered-search
retry at all. -/
theorem C3_no_recovery_on_empty_retrieval :
    (∀ (env : SearchEnv) (q : String) (t : Nat), env.leann q t = [] →
      searchAndExtractE env q t = .ok "No matching content found.") ∧
    searchAndExtractE envC3b "macbook invoice" 5 =
      filenameFallbackE readerFB filesFB envC3b.gen "macbook invoice" 1 ∧
    searchAndExtractE envC3b "macbook invoice" 5 =
      .ok "From macbook_ssd.pdf:\n  - File found: macbook_ssd.pdf" := by
  refine ⟨?_, rfl, rfl⟩
  intro env q t h
  unfold searchAndExtractE
  rw [h]
  rfl

/-- Witness for C3 at the concrete empty-retrieval environment. -/
theorem C3_no_recovery_witness :
    envC3.leann "budget report" 5 = [] ∧
    searchAndExtractE envC3 "budget report" 5 =
      .ok "No matching content found." :=
  ⟨rfl, C3_no_recovery_on_empty_retrieval.1 envC3 "budget report" 5 rfl⟩

/-! ### C9 — the filename-grep fallback surfaces every readable match -/

theorem fallbackSteps_surfaces (reader : String → String) (gen : Nat → String) :
    ∀ (paths : List PathT) (k0 : Nat) (entries : List (String × List String))
      (p : PathT), p ∈ paths → readFailed (reader p.full) = false →
    fallbackSteps reader gen paths k0 = .ok entries →
    ∃ fs, (p.name, fs) ∈ entries ∧ fs ≠ [] ∧
      (fs = ["File found: " ++ p.name] ∨
        ∃ k2, extractFactsE (gen k2) = .ok fs) := by
  intro paths
  induction paths with
  | nil => intro k0 entries p hp; cases hp
  | cons hd tl ih =>
    intro k0 entries p hp hread hsteps
    rcases List.mem_cons.mp hp with rfl | hmem
    · simp only [fallbackSteps, hread, Bool.false_eq_true, if_false] at hsteps
      cases hx : extractFactsE (gen k0) with
      | error e => rw [hx] at hsteps; cases hsteps
      | ok fs =>
        rw [hx] at hsteps
        cases hrest : fallbackSteps reader gen tl (k0 + 1) with
        | error e => rw [hrest] at hsteps; cases hsteps
        | ok restE =>
          rw [hrest] at hsteps
          have hent := (Except.ok.injEq _ _).mp hsteps
          refine ⟨if fs.isEmpty then ["File found: " ++ p.name] else fs, ?_, ?_, ?_⟩
          · rw [← hent]
            exact List.mem_cons_self _ _
          · cases hfs : fs.isEmpty with
            | true => simp [hfs]
            | false =>
              simp only [hfs, Bool.false_eq_true, if_false]
              exact fun hc => by simp [hc] at hfs
          · cases hfs : fs.isEmpty with
            | true => left; simp [hfs]
            | false =>
              right
              refine ⟨k0, ?_⟩
              simp only [hfs, Bool.false_eq_true, if_false]
              exact hx
    · cases hreadhd : readFailed (reader hd.full) with
      | true =>
        simp only [fallbackSteps, hreadhd, if_true] at hsteps
        exact ih k0 entries p hmem hread hsteps
      | false =>
        simp only [fallbackSteps, hreadhd, Bool.false_eq_true, if_false] at hsteps
        cases hx : extractFactsE (gen k0) with
        | error e => rw [hx] at hsteps; cases hsteps
        | ok fs =>
          rw [hx] at hsteps
          cases hrest : fallbackSteps reader gen tl (k0 + 1) with
          | error e => rw [hrest] at hsteps; cases hsteps
          | ok restE =>
            rw [hrest] at hsteps
            have hent := (Except.ok.injEq _ _).mp hsteps
            obtain ⟨fs2, hin, hne, hor⟩ := ih (k0 + 1) restE p hmem hread hrest
            exact ⟨fs2, by rw [← hent]; exact List.mem_cons_of_mem _ hin, hne, hor⟩

/-- Claim C9: the filename fallback reads at most 3 matched files in total,
and every matched file whose text reads successfully is surfaced — with the
facts the model extraction produced when there are any, or with the single
`File found:` placeholder when extraction yielded nothing — regardless of any
relevance judgment. -/
theorem C9_fallback_surfaces_readable_matches (files : List PathT)
    (reader : String → String) (gen : Nat → String) (q : String) (k0 : Nat)
    (entries : List (String × List String)) (p : PathT)
    (hp : p ∈ fallbackPaths files q)
    (hread : readFailed (reader p.full) = false)
    (hsteps : fallbackSteps reader gen (fallbackPaths files q) k0 = .ok entries) :
    (fallbackPaths files q).length ≤ 3 ∧
    ∃ fs, (p.name, fs) ∈ entries ∧ fs ≠ [] ∧
      (fs = ["File found: " ++ p.name] ∨
        ∃ k2, extractFactsE (gen k2) = .ok fs) := by
  refine ⟨?_, fallbackSteps_surfaces reader gen _ k0 entries p hp hread hsteps⟩
  unfold fallbackPaths
  exact List.length_take_le _ _

/-- Witness for C9 on the concrete fallback run over `filesFB`: the single
matched file reads successfully and is surfaced with the placeholder fact. -/
theorem C9_fallback_witness :
    (⟨"/data", "macbook_ssd.pdf"⟩ : PathT) ∈ fallbackPaths filesFB "macbook invoice" ∧
    readFailed (readerFB (PathT.full ⟨"/data", "macbook_ssd.pdf"⟩)) = false ∧
    ((fallbackPaths filesFB "macbook invoice").length ≤ 3 ∧
      ∃ fs, ("macbook_ssd.pdf", fs) ∈
          [("macbook_ssd.pdf", ["File found: macbook_ssd.pdf"])] ∧ fs ≠ [] ∧
        (fs = ["File found: " ++ "macbook_ssd.pdf"] ∨
          ∃ k2, extractFactsE (genNoJson k2) = .ok fs)) := by
  have hmem : (⟨"/data", "macbook_ssd.pdf"⟩ : PathT) ∈
      fallbackPaths filesFB "macbook invoice" := by
    have he : fallbackPaths filesFB "macbook invoice" =
        [⟨"/data", "macbook_ssd.pdf"⟩] := rfl
    rw [he]
    exact List.mem_singleton.mpr rfl
  refine ⟨hmem, rfl, ?_⟩
  exact C9_fallback_surfaces_readable_matches filesFB readerFB genNoJson
    "macbook invoice" 0 [("macbook_ssd.pdf", ["File found: macbook_ssd.pdf"])]
    ⟨"/data", "macbook_ssd.pdf"⟩ hmem rfl rfl

end Manole
